import Mathlib

/-!
Verification of the caption-extraction and prompt-orchestration pipeline of a
small video-summarizer web backend (`app.py`), shallowly embedded in Lean.

Python strings are modelled as Lean `String` over their code points, Python
ints as `Int`, JSON values as the inductive `JVal`, Python dicts as ordered
association lists, and raised exceptions as the `Except` monad.  Character
classes (`\w`, `str.strip` whitespace, `str.isdigit`) are modelled at ASCII
granularity.
-/

namespace App

/-! ### Video id extraction (`get_video_id`, app.py lines 38-41) -/

/-- Python `\w` together with `-`, i.e. the character class `[\w-]` of the
regex in `get_video_id`. -/
def isWordDash (c : Char) : Bool := c.isAlphanum || c == '_' || c == '-'

/-- The lookbehind marker `v=`. -/
def markerV : List Char := ['v', '=']

/-- The lookbehind marker `youtu.be/`. -/
def markerBe : List Char := ['y', 'o', 'u', 't', 'u', '.', 'b', 'e', '/']

/-- Whether the reversed list of characters already consumed ends with one of
the two lookbehind markers (`rev` is the reversed prefix of the input before
the current position). -/
def matchesBehind (rev : List Char) : Bool :=
  List.isPrefixOf ['=', 'v'] rev ||
    List.isPrefixOf ['/', 'e', 'b', '.', 'u', 't', 'u', 'o', 'y'] rev

/-- The search of `re.search(r'(?<=v=)[\w-]+|(?<=youtu\.be\/)[\w-]+', url)`:
scan start positions left to right; at the first position whose preceding
characters end with a marker and whose own character is in `[\w-]`, the
greedy `+` takes the maximal run.  (At any position at most one lookbehind
can hold, so alternative order is immaterial.) -/
def searchFrom : List Char → List Char → Option (List Char)
  | _, [] => none
  | rev, c :: cs =>
    if matchesBehind rev && isWordDash c then some (c :: List.takeWhile isWordDash cs)
    else searchFrom (c :: rev) cs

/-- `get_video_id` (lines 38-41): `if not url: return None`, then the regex
search, returning the matched text or `None`. -/
def get_video_id (url : String) : Option String :=
  if url.data = [] then none
  else Option.map String.mk (searchFrom [] url.data)

/-- The URL contains one of the two patterns of the regex: a marker followed
by at least one `[\w-]` character. -/
def containsPattern (l : List Char) : Prop :=
  ∃ a c b, (l = a ++ markerV ++ c :: b ∨ l = a ++ markerBe ++ c :: b) ∧ isWordDash c = true

/-! ### Caption track selection (`get_transcript_with_ytdlp`, app.py lines 60-89) -/

/-- One entry of a caption language's track list; only its delivery URL is
read by the selection code. -/
structure Track where
  url : String
deriving DecidableEq, Repr

/-- The slice of the yt-dlp `info` dict that the selection code reads: the
`subtitles` and `automatic_captions` dicts (ordered, language code to track
list), each possibly absent. -/
structure VideoInfo where
  subtitles : Option (List (String × List Track))
  automatic_captions : Option (List (String × List Track))
deriving DecidableEq, Repr

/-- The exceptions raised inside the `try` of `get_transcript_with_ytdlp`. -/
inductive FetchErr where
  /-- `raise Exception("No captions available for this video")` (line 86) -/
  | noCaptions
  /-- `raise Exception("Could not find subtitle URL")` (line 89) -/
  | noSubtitleUrl
  /-- Python `IndexError` from `[0]` on an empty track list -/
  | indexError
  /-- `raise Exception("Transcript extracted but empty")` (line 109) -/
  | emptyTranscript
deriving DecidableEq, Repr

/-- Ordered dict lookup, used both for `d[k]` and for `'k' in d`. -/
def lookupLang (subs : List (String × List Track)) (k : String) : Option (List Track) :=
  match subs with
  | [] => none
  | (k', v) :: rest => if k' = k then some v else lookupLang rest k

/-- Python truthiness of a dict field: `'subtitles' in info and info['subtitles']`
holds exactly when the key is present with a non-empty dict. -/
def truthy (o : Option (List (String × List Track))) : Option (List (String × List Track)) :=
  match o with
  | some [] => none
  | some l => some l
  | none => none

/-- `tracks[0]['url']`; Python raises `IndexError` when the list is empty. -/
def firstTrackUrl (tracks : List Track) : Except FetchErr String :=
  match tracks with
  | [] => .error .indexError
  | t :: _ => .ok t.url

/-- The manual-caption branch (lines 70-78): English first, else the first
listed language; the final `else` arm is dead under a truthy dict. -/
def manualBranch (subs : List (String × List Track)) : Except FetchErr (Option String) :=
  match lookupLang subs "en" with
  | some tracks => Except.map some (firstTrackUrl tracks)
  | none =>
    match subs with
    | (_, tracks) :: _ => Except.map some (firstTrackUrl tracks)
    | [] => .ok none

/-- The automatic-caption branch (lines 79-84): English or nothing. -/
def autoBranch (autos : List (String × List Track)) : Except FetchErr (Option String) :=
  match lookupLang autos "en" with
  | some tracks => Except.map some (firstTrackUrl tracks)
  | none => .ok none

/-- Lines 68-86: the `if`/`elif`/`else` computing `subtitle_url` (or raising
when neither caption dict is present and truthy). -/
def pickSubtitleUrl (info : VideoInfo) : Except FetchErr (Option String) :=
  match truthy info.subtitles with
  | some subs => manualBranch subs
  | none =>
    match truthy info.automatic_captions with
    | some autos => autoBranch autos
    | none => .error .noCaptions

/-- Lines 68-89: selection followed by `if not subtitle_url: raise ...`
(Python `not` is true both for `None` and for the empty string). -/
def get_subtitle_url (info : VideoInfo) : Except FetchErr String :=
  match pickSubtitleUrl info with
  | .error e => .error e
  | .ok none => .error .noSubtitleUrl
  | .ok (some u) => if u = "" then .error .noSubtitleUrl else .ok u

/-- A language entry whose first track exists and has a non-empty URL. -/
def goodLang (p : String × List Track) : Bool :=
  match p.2 with
  | [] => false
  | t :: _ => if t.url = "" then false else true

/-- Provider well-formedness: every listed language has at least one track
descriptor and its first track has a non-empty delivery URL (the shape the
video-info collaborator contract promises). -/
def wellFormedInfo (info : VideoInfo) : Bool :=
  (info.subtitles.getD []).all goodLang && (info.automatic_captions.getD []).all goodLang

/-! ### Caption payload flattening (app.py lines 96-111) -/

/-- One entry of an event's `segs` list; the `utf8` key may be absent. -/
structure Seg where
  utf8 : Option String
deriving DecidableEq, Repr

/-- One caption event; the `segs` key may be absent. -/
structure Event where
  segs : Option (List Seg)
deriving DecidableEq, Repr

/-- The parsed caption JSON document; the `events` key may be absent
(`subtitles.get('events', [])`). -/
structure CaptionDoc where
  events : Option (List Event)
deriving DecidableEq, Repr

/-- Lines 99-104: the loop building `transcript_parts`. -/
def transcript_parts (events : List Event) : List String :=
  match events with
  | [] => []
  | e :: rest =>
    (match e.segs with
     | some segs => segs.filterMap (fun s => s.utf8)
     | none => []) ++ transcript_parts rest

/-- Line 106: `transcript_text = ' '.join(transcript_parts)`. -/
def transcript_text (doc : CaptionDoc) : String :=
  String.intercalate " " (transcript_parts (doc.events.getD []))

/-- The whitespace characters removed by Python `str.strip()`. -/
def isPySpace (c : Char) : Bool :=
  c == ' ' || c == '\t' || c == '\n' || c == '\r' || c == '\x0b' || c == '\x0c'

/-- Python `str.strip()`. -/
def pyStrip (s : String) : String :=
  String.mk (((s.data.dropWhile isPySpace).reverse.dropWhile isPySpace).reverse)

/-- Lines 106-111: the join, the `if not transcript_text.strip()` emptiness
check, and the returned transcript. -/
def extract_transcript (doc : CaptionDoc) : Except FetchErr String :=
  let t := transcript_text doc
  if pyStrip t = "" then .error .emptyTranscript else .ok t

/-! ### Prompt construction (app.py lines 121-124 and 228-231) -/

/-- The Python code-point slice `s[:n]`. -/
def pyTake (s : String) (n : Nat) : String := String.mk (s.data.take n)

/-- The fixed instruction text of the summarization prompt (line 122). -/
def summarize_instr : String :=
  "Summarize this video transcript in 3 paragraphs. Focus on the main topic and conclusion. List out the main points in list form which must be bullet list form. Give significance to main points. STAY ONLY ACCORDING TO THE TRANSCRIPT GIVEN AND NOTHING ELSE.\n\n"

/-- Lines 121-124: the summarization prompt; the transcript is truncated to
its first 10,000 characters. -/
def summary_prompt (transcript : String) : String :=
  summarize_instr ++ pyTake transcript 10000

/-- The fixed instruction text of the answer prompt (line 229). -/
def ask_instr : String :=
  "Answer the question of the user based off the summary. Use the summary as the context. List out the main points in list form which must be bullet list form. The answer MUST STAY ONLY ACCORDING TO THE QUESTION GIVEN AND NOTHING ELSE. If the user asks questions outside the context provided, response by saying: I cannot answer this question as it is out of context. \n\n"

/-- Lines 228-231: the answer prompt; the summary is truncated to 2,500
characters and the question to 500. -/
def ask_prompt (summary question : String) : String :=
  ask_instr ++ "Summary: " ++ pyTake summary 2500 ++ "\n" ++ "Question: " ++ pyTake question 500

/-- `summarize_transcript` (lines 117-135), the model call abstracted as a
function from the prompt to the response text or a raised exception. -/
def summarize_transcript (client : Bool) (callModel : String → Except String String)
    (transcript : String) : String × Bool :=
  if client = false then ("Mistral client unavailable. Check API key or imports.", false)
  else
    match callModel (summary_prompt transcript) with
    | .ok msg => (msg, true)
    | .error e => ("Mistral API Error: " ++ e, false)

/-! ### The `/ask` endpoint (app.py lines 192-246) -/

/-- JSON values, as far as the endpoint inspects them. -/
inductive JVal where
  | str (s : String)
  | int (n : Int)
  | bool (b : Bool)
  | null
deriving DecidableEq, Repr

/-- A JSON object: an ordered key/value list (a Python dict). -/
abbrev JObj := List (String × JVal)

/-- Dict lookup `d.get(k)`. -/
def jget (d : JObj) (k : String) : Option JVal :=
  match d with
  | [] => none
  | (k', v) :: rest => if k' = k then some v else jget rest k

/-- `k in d`. -/
def hasKey (d : JObj) (k : String) : Bool := (jget d k).isSome

/-- An HTTP response: status code plus JSON body. -/
structure HttpResp where
  status : Nat
  body : JObj
deriving DecidableEq, Repr

/-- Decimal value of a digit list. -/
def digitsToNat (ds : List Char) : Nat :=
  ds.foldl (fun acc c => acc * 10 + (c.toNat - 48)) 0

/-- Python `int(s)` on a string: optional surrounding whitespace, optional
sign, then decimal digits; anything else raises `ValueError`. -/
def parseDecInt (s : String) : Option Int :=
  match (pyStrip s).data with
  | [] => none
  | '+' :: ds =>
    if ds.isEmpty then none
    else if ds.all Char.isDigit then some (Int.ofNat (digitsToNat ds)) else none
  | '-' :: ds =>
    if ds.isEmpty then none
    else if ds.all Char.isDigit then some (-(Int.ofNat (digitsToNat ds))) else none
  | ds => if ds.all Char.isDigit then some (Int.ofNat (digitsToNat ds)) else none

/-- `int(x)` (line 213): ints pass through, bools are 1/0, numeric strings
parse, everything else raises. -/
def pyInt : JVal → Except String Int
  | .int n => .ok n
  | .bool b => .ok (if b then 1 else 0)
  | .str s =>
    match parseDecInt s with
    | some n => .ok n
    | none => .error ("invalid literal for int() with base 10: " ++ s)
  | .null => .error "int() argument must be a string, a bytes-like object or a real number, not NoneType"

/-- Slicing a value that must be a string (`summary[:2500]`, `question[:500]`):
non-strings raise `TypeError`. -/
def asStr : JVal → Except String String
  | .str s => .ok s
  | _ => .error "TypeError: object is not subscriptable"

/-- The endpoint's collaborators: whether `mistral_client` is initialized,
and the model call (prompt to response text, or a raised exception). -/
structure AskEnv where
  client : Bool
  callModel : String → Except String String

/-- The incoming request: `request.is_json` plus `request.get_json()`
(`none` models a `None` body). -/
structure AskReq where
  is_json : Bool
  body : Option JObj

/-- The body of the `try` block of `ask` (lines 194-243); a `.error` is an
exception escaping to the outer `except`. -/
def askCore (env : AskEnv) (req : AskReq) : Except String HttpResp :=
  if req.is_json = false then
    .ok ⟨400, [("verification", .bool false), ("error", .str "JSON not available.")]⟩
  else
    match req.body with
    | none => .ok ⟨400, [("verification", .bool false), ("error", .str "Request failed.")]⟩
    | some data =>
      if hasKey data "question" = false then
        .ok ⟨400, [("error", .str "question is required.")]⟩
      else if hasKey data "prompt_count" = false then
        .ok ⟨400, [("error", .str "prompt_count is required.")]⟩
      else if hasKey data "summary" = false then
        .ok ⟨400, [("error", .str "summary is required.")]⟩
      else
        match pyInt ((jget data "prompt_count").getD (.int 0)) with
        | .error e => .error e
        | .ok prompt_count =>
          if 8 ≤ prompt_count then
            .ok ⟨400, [("success", .bool false), ("error", .str "Max prompt limit reached")]⟩
          else if env.client = false then
            .ok ⟨500, [("success", .bool false),
                        ("error", .str "Mistral API Key or client initialization failed.")]⟩
          else
            match asStr ((jget data "summary").getD .null) with
            | .error e => .error e
            | .ok summary =>
              match asStr ((jget data "question").getD .null) with
              | .error e => .error e
              | .ok question =>
                match env.callModel (ask_prompt summary question) with
                | .error e => .error e
                | .ok answer =>
                  .ok ⟨200, [("success", .bool true), ("answer", .str answer),
                              ("prompt_count", .int (prompt_count + 1))]⟩

/-- `ask` (lines 192-246): the `try` body, with the outer `except` mapping
any exception to the 500 envelope of line 246. -/
def ask (env : AskEnv) (req : AskReq) : HttpResp :=
  match askCore env req with
  | .ok r => r
  | .error e => ⟨500, [("verification", .bool false),
                        ("error", .str ("Internal server error " ++ e))]⟩

/-- A JSON request carrying the three required fields. -/
def askJson (q : String) (pcv : JVal) (s : String) : AskReq :=
  ⟨true, some [("question", .str q), ("prompt_count", pcv), ("summary", .str s)]⟩

/-! ### Concrete fixtures -/

/-- Fixture: manual and automatic English captions both available. -/
def infoManualEn : VideoInfo :=
  ⟨some [("en", [⟨"https://cap/manual-en"⟩])], some [("en", [⟨"https://cap/auto-en"⟩])]⟩

/-- Fixture: no manual captions, only non-English automatic captions. -/
def infoAutoFr : VideoInfo :=
  ⟨none, some [("fr", [⟨"https://cap/auto-fr"⟩])]⟩

/-- Fixture caption document producing the transcript `"a b"`. -/
def docAB : CaptionDoc :=
  ⟨some [⟨some [⟨some "a"⟩]⟩, ⟨some [⟨some "b"⟩]⟩]⟩

/-- Fixture caption document with an empty event list. -/
def docEmpty : CaptionDoc := ⟨some []⟩

/-! ### Helper lemmas -/

lemma head?_dropWhile {α : Type} (p : α → Bool) :
    ∀ (l : List α) (c : α), (l.dropWhile p).head? = some c → p c = false := by
  intro l
  induction l with
  | nil => intro c h; simp [List.dropWhile] at h
  | cons d ds ih =>
    intro c h
    by_cases hd : p d = true
    · rw [List.dropWhile_cons, if_pos hd] at h
      exact ih c h
    · rw [List.dropWhile_cons, if_neg hd] at h
      simp only [List.head?_cons, Option.some.injEq] at h
      subst h
      simpa using hd

lemma all_dropWhile_iff {α : Type} (p : α → Bool) (l : List α) :
    (∀ x ∈ l.dropWhile p, p x = true) ↔ ∀ x ∈ l, p x = true := by
  constructor
  · intro h x hx
    rw [← List.takeWhile_append_dropWhile (p := p) (l := l)] at hx
    rcases List.mem_append.mp hx with hx | hx
    · exact List.mem_takeWhile_imp hx
    · exact h x hx
  · intro h x hx
    apply h
    rw [← List.takeWhile_append_dropWhile (p := p) (l := l)]
    exact List.mem_append.mpr (Or.inr hx)

lemma pyStrip_eq_empty_iff (s : String) :
    pyStrip s = "" ↔ s.data.all isPySpace = true := by
  unfold pyStrip
  rw [String.ext_iff]
  show (((s.data.dropWhile isPySpace).reverse.dropWhile isPySpace).reverse = []) ↔ _
  rw [List.reverse_eq_nil_iff, List.dropWhile_eq_nil_iff, List.all_eq_true]
  constructor
  · intro h
    rw [← all_dropWhile_iff isPySpace s.data]
    intro x hx
    exact h x (List.mem_reverse.mpr hx)
  · intro h x hx
    exact (all_dropWhile_iff isPySpace s.data).mpr h x (List.mem_reverse.mp hx)

lemma pyTake_length (s : String) (n : Nat) : (pyTake s n).length = min n s.length := by
  cases s with
  | mk l => exact List.length_take n l

lemma pyTake_of_length_le {s : String} {n : Nat} (h : s.length ≤ n) : pyTake s n = s := by
  cases s with
  | mk l => exact congrArg String.mk (List.take_of_length_le h)

lemma mem_of_lookupLang :
    ∀ (subs : List (String × List Track)) (k : String) (v : List Track),
      lookupLang subs k = some v → (k, v) ∈ subs := by
  intro subs
  induction subs with
  | nil => intro k v h; simp [lookupLang] at h
  | cons p rest ih =>
    intro k v h
    obtain ⟨k', w⟩ := p
    rw [lookupLang] at h
    by_cases hk : k' = k
    · rw [if_pos hk] at h
      subst hk
      obtain rfl : w = v := Option.some.injEq .. ▸ h
      exact List.mem_cons_self _ _
    · rw [if_neg hk] at h
      exact List.mem_cons_of_mem _ (ih k v h)

lemma truthy_eq_some {o : Option (List (String × List Track))}
    {l : List (String × List Track)} (h : truthy o = some l) : o = some l ∧ l ≠ [] := by
  cases o with
  | none => simp [truthy] at h
  | some l' =>
    cases l' with
    | nil => simp [truthy] at h
    | cons x xs =>
      simp only [truthy, Option.some.injEq] at h
      subst h
      exact ⟨rfl, by intro hh; exact List.noConfusion hh⟩

/-! ### Claim C6: video id extraction -/

lemma isPrefixOf_exists {l₁ l₂ : List Char} :
    List.isPrefixOf l₁ l₂ = true ↔ ∃ t, l₁ ++ t = l₂ :=
  List.isPrefixOf_iff_prefix

lemma matchesBehind_iff (rev : List Char) :
    matchesBehind rev = true ↔
      (∃ t, ['=', 'v'] ++ t = rev) ∨
        (∃ t, ['/', 'e', 'b', '.', 'u', 't', 'u', 'o', 'y'] ++ t = rev) := by
  rw [matchesBehind, Bool.or_eq_true, isPrefixOf_exists, isPrefixOf_exists]

lemma searchFrom_some_spec :
    ∀ (rest rev res : List Char), searchFrom rev rest = some res →
      ∃ pre post, rest = pre ++ (res ++ post) ∧ res ≠ [] ∧
        (∀ c ∈ res, isWordDash c = true) ∧
        matchesBehind (pre.reverse ++ rev) = true ∧
        (∀ c, post.head? = some c → isWordDash c = false) := by
  intro rest
  induction rest with
  | nil => intro rev res h; simp [searchFrom] at h
  | cons c cs ih =>
    intro rev res h
    rw [searchFrom] at h
    by_cases hc : (matchesBehind rev && isWordDash c) = true
    · rw [if_pos hc] at h
      rw [Bool.and_eq_true] at hc
      obtain ⟨hmb, hwd⟩ := hc
      obtain rfl : c :: List.takeWhile isWordDash cs = res := Option.some.inj h
      refine ⟨[], List.dropWhile isWordDash cs, ?_, ?_, ?_, ?_, ?_⟩
      · simp [List.takeWhile_append_dropWhile]
      · exact fun hh => List.noConfusion hh
      · intro x hx
        rcases List.mem_cons.mp hx with rfl | hx
        · exact hwd
        · exact List.mem_takeWhile_imp hx
      · simpa using hmb
      · intro x hx
        exact head?_dropWhile isWordDash cs x hx
    · rw [if_neg hc] at h
      obtain ⟨pre', post', hsplit, hne, hall, hmb, hpost⟩ := ih (c :: rev) res h
      refine ⟨c :: pre', post', ?_, hne, hall, ?_, hpost⟩
      · rw [List.cons_append, ← hsplit]
      · rw [List.reverse_cons, List.append_assoc]
        exact hmb

lemma searchFrom_none_spec :
    ∀ (rest rev : List Char), searchFrom rev rest = none →
      ∀ pre c post, rest = pre ++ c :: post → isWordDash c = true →
        matchesBehind (pre.reverse ++ rev) = false := by
  intro rest
  induction rest with
  | nil =>
    intro rev _ pre c post hsplit _
    exact absurd hsplit (by simp)
  | cons d ds ih =>
    intro rev h pre c post hsplit hwd
    rw [searchFrom] at h
    by_cases hc : (matchesBehind rev && isWordDash d) = true
    · rw [if_pos hc] at h; cases h
    · rw [if_neg hc] at h
      cases pre with
      | nil =>
        simp only [List.nil_append] at hsplit
        obtain ⟨rfl, rfl⟩ : d = c ∧ ds = post := by
          injection hsplit with h1 h2; exact ⟨h1, h2⟩
        simp only [List.reverse_nil, List.nil_append]
        by_cases hm : matchesBehind rev = true
        · exact absurd (by simp [hm, hwd]) hc
        · exact Bool.eq_false_iff.mpr hm
      | cons e pre' =>
        simp only [List.cons_append] at hsplit
        obtain ⟨rfl, hds⟩ : d = e ∧ ds = pre' ++ c :: post := by
          injection hsplit with h1 h2; exact ⟨h1, h2⟩
        rw [List.reverse_cons, List.append_assoc]
        exact ih (d :: rev) h pre' c post hds hwd

/-- Claim C6: on the empty URL the extractor returns `none`; every successful
extraction is a non-empty maximal run of `[\w-]` characters immediately
following a `v=` marker or the `youtu.be/` short-link marker inside the URL;
every URL containing such a pattern yields some id; and a URL with neither
pattern yields `none`.  The function is total, so no exception is raised. -/
theorem video_id_extraction (url : String) :
    (url = "" → get_video_id url = none) ∧
    (∀ id, get_video_id url = some id →
        ∃ a b, (url.data = a ++ markerV ++ id.data ++ b ∨
                url.data = a ++ markerBe ++ id.data ++ b) ∧
          id.data ≠ [] ∧ (∀ c ∈ id.data, isWordDash c = true) ∧
          (∀ c, b.head? = some c → isWordDash c = false)) ∧
    (containsPattern url.data → ∃ id, get_video_id url = some id) ∧
    (¬ containsPattern url.data → get_video_id url = none) := by
  have hsound : ∀ id, get_video_id url = some id →
      ∃ a b, (url.data = a ++ markerV ++ id.data ++ b ∨
              url.data = a ++ markerBe ++ id.data ++ b) ∧
        id.data ≠ [] ∧ (∀ c ∈ id.data, isWordDash c = true) ∧
        (∀ c, b.head? = some c → isWordDash c = false) := by
    intro id h
    rw [get_video_id] at h
    by_cases hd : url.data = []
    · rw [if_pos hd] at h; cases h
    · rw [if_neg hd] at h
      obtain ⟨l, hs, hmk⟩ := Option.map_eq_some'.mp h
      obtain ⟨pre, post, hsplit, hne, hall, hmb, hpost⟩ := searchFrom_some_spec url.data [] l hs
      have hid : id.data = l := by rw [← hmk]
      rw [List.append_nil] at hmb
      rcases (matchesBehind_iff pre.reverse).mp hmb with ⟨t, ht⟩ | ⟨t, ht⟩
      · have hpre : pre = t.reverse ++ markerV := by
          have h2 := congrArg List.reverse ht
          rw [List.reverse_reverse] at h2
          rw [← h2, List.reverse_append]
          rfl
        refine ⟨t.reverse, post, Or.inl ?_, ?_, ?_, hpost⟩
        · rw [hsplit, hpre, hid]
          simp [List.append_assoc]
        · rw [hid]; exact hne
        · rw [hid]; exact hall
      · have hpre : pre = t.reverse ++ markerBe := by
          have h2 := congrArg List.reverse ht
          rw [List.reverse_reverse] at h2
          rw [← h2, List.reverse_append]
          rfl
        refine ⟨t.reverse, post, Or.inr ?_, ?_, ?_, hpost⟩
        · rw [hsplit, hpre, hid]
          simp [List.append_assoc]
        · rw [hid]; exact hne
        · rw [hid]; exact hall
  have hcomplete : containsPattern url.data → ∃ id, get_video_id url = some id := by
    rintro ⟨a, c, b, hab, hwc⟩
    have hd : url.data ≠ [] := by
      rcases hab with h | h <;> rw [h] <;> simp [markerV, markerBe]
    rw [get_video_id, if_neg hd]
    cases hs : searchFrom [] url.data with
    | some l => exact ⟨String.mk l, rfl⟩
    | none =>
      exfalso
      rcases hab with h | h
      · have hsplit : url.data = (a ++ markerV) ++ c :: b := h
        have hfalse := searchFrom_none_spec url.data [] hs (a ++ markerV) c b hsplit hwc
        rw [List.append_nil, List.reverse_append] at hfalse
        have htrue : matchesBehind (markerV.reverse ++ a.reverse) = true :=
          (matchesBehind_iff _).mpr (Or.inl ⟨a.reverse, rfl⟩)
        rw [htrue] at hfalse
        cases hfalse
      · have hsplit : url.data = (a ++ markerBe) ++ c :: b := h
        have hfalse := searchFrom_none_spec url.data [] hs (a ++ markerBe) c b hsplit hwc
        rw [List.append_nil, List.reverse_append] at hfalse
        have htrue : matchesBehind (markerBe.reverse ++ a.reverse) = true :=
          (matchesBehind_iff _).mpr (Or.inr ⟨a.reverse, rfl⟩)
        rw [htrue] at hfalse
        cases hfalse
  refine ⟨?_, hsound, hcomplete, ?_⟩
  · intro h
    subst h
    rfl
  · intro hnp
    cases h : get_video_id url with
    | none => rfl
    | some id =>
      exfalso
      obtain ⟨a, b, hor, hne, hall, -⟩ := hsound id h
      obtain ⟨c, rest, hcr⟩ : ∃ c rest, id.data = c :: rest := by
        cases hdd : id.data with
        | nil => exact absurd hdd hne
        | cons c rest => exact ⟨c, rest, rfl⟩
      apply hnp
      refine ⟨a, c, rest ++ b, ?_, hall c (by rw [hcr]; exact List.mem_cons_self _ _)⟩
      rcases hor with h' | h'
      · left
        rw [h', hcr]
        simp [List.append_assoc]
      · right
        rw [h', hcr]
        simp [List.append_assoc]

/-- Witness for C6: the empty URL yields `none`, a `watch?v=` URL and a
short-link URL each yield an id. -/
theorem video_id_extraction_witness :
    get_video_id "" = none ∧
      (∃ id, get_video_id "https://www.youtube.com/watch?v=abc123" = some id) ∧
      (∃ id, get_video_id "https://youtu.be/dQw4w9WgXcQ" = some id) :=
  ⟨(video_id_extraction "").1 rfl,
   (video_id_extraction "https://www.youtube.com/watch?v=abc123").2.2.1
     ⟨"https://www.youtube.com/watch?".data, 'a', "bc123".data, Or.inl (by decide), by decide⟩,
   (video_id_extraction "https://youtu.be/dQw4w9WgXcQ").2.2.1
     ⟨"https://".data, 'd', "Qw4w9WgXcQ".data, Or.inr (by decide), by decide⟩⟩

/-! ### Claim C1: caption track selection precedence -/

lemma firstUrl_ne_of_wf {o : Option (List (String × List Track))}
    {l : List (String × List Track)} {k : String} {t : Track} {ts : List Track}
    (hall : (o.getD []).all goodLang = true) (ht : truthy o = some l)
    (hmem : (k, t :: ts) ∈ l) : ¬ t.url = "" := by
  obtain ⟨ho, -⟩ := truthy_eq_some ht
  rw [ho] at hall
  have hg := List.all_eq_true.mp hall _ hmem
  simp only [goodLang] at hg
  by_cases hu : t.url = ""
  · rw [if_pos hu] at hg; cases hg
  · exact hu

/-- Claim C1: caption track selection follows strict precedence: a truthy
manual-caption dict with an English entry yields the English manual track; a
truthy manual dict without English yields its first listed language; with no
truthy manual dict, a truthy automatic dict with English yields the English
automatic track; a truthy automatic dict without English fails (no fallback
to its first language); and with neither dict the fetch fails.  Both failure
exits are the caption-unavailable errors of the source (`noCaptions` and
`noSubtitleUrl`). -/
theorem caption_track_selection (info : VideoInfo) (hwf : wellFormedInfo info = true) :
    (∀ subs t ts, truthy info.subtitles = some subs →
        lookupLang subs "en" = some (t :: ts) → get_subtitle_url info = .ok t.url) ∧
    (∀ lang t ts rest, truthy info.subtitles = some ((lang, t :: ts) :: rest) →
        lookupLang ((lang, t :: ts) :: rest) "en" = none →
        get_subtitle_url info = .ok t.url) ∧
    (∀ autos t ts, truthy info.subtitles = none →
        truthy info.automatic_captions = some autos →
        lookupLang autos "en" = some (t :: ts) → get_subtitle_url info = .ok t.url) ∧
    (∀ autos, truthy info.subtitles = none →
        truthy info.automatic_captions = some autos →
        lookupLang autos "en" = none → get_subtitle_url info = .error .noSubtitleUrl) ∧
    (truthy info.subtitles = none → truthy info.automatic_captions = none →
        get_subtitle_url info = .error .noCaptions) := by
  rw [wellFormedInfo, Bool.and_eq_true] at hwf
  obtain ⟨hM, hA⟩ := hwf
  refine ⟨?_, ?_, ?_, ?_, ?_⟩
  · intro subs t ts hts hlook
    have hmem := mem_of_lookupLang subs "en" (t :: ts) hlook
    have hurl := firstUrl_ne_of_wf hM hts hmem
    simp [get_subtitle_url, pickSubtitleUrl, manualBranch, hts, hlook, firstTrackUrl,
      Except.map, hurl]
  · intro lang t ts rest hts hlook
    have hmem : (lang, t :: ts) ∈ (lang, t :: ts) :: rest := List.mem_cons_self _ _
    have hurl := firstUrl_ne_of_wf hM hts hmem
    simp [get_subtitle_url, pickSubtitleUrl, manualBranch, hts, hlook, firstTrackUrl,
      Except.map, hurl]
  · intro autos t ts hsub hauto hlook
    have hmem := mem_of_lookupLang autos "en" (t :: ts) hlook
    have hurl := firstUrl_ne_of_wf hA hauto hmem
    simp [get_subtitle_url, pickSubtitleUrl, autoBranch, hsub, hauto, hlook, firstTrackUrl,
      Except.map, hurl]
  · intro autos hsub hauto hlook
    simp [get_subtitle_url, pickSubtitleUrl, autoBranch, hsub, hauto, hlook]
  · intro hsub hauto
    simp [get_subtitle_url, pickSubtitleUrl, hsub, hauto]

/-- Witness for C1: the manual English track wins over the automatic English
one, and non-English automatic captions with no manual captions fail instead
of falling back. -/
theorem caption_track_selection_witness :
    get_subtitle_url infoManualEn = .ok "https://cap/manual-en" ∧
    get_subtitle_url infoAutoFr = .error .noSubtitleUrl :=
  ⟨(caption_track_selection infoManualEn (by decide)).1
      [("en", [⟨"https://cap/manual-en"⟩])] ⟨"https://cap/manual-en"⟩ [] (by decide) (by decide),
   (caption_track_selection infoAutoFr (by decide)).2.2.2.1
      [("fr", [⟨"https://cap/auto-fr"⟩])] (by decide) (by decide) (by decide)⟩

/-! ### Claim C2: flattening is order-preserving and space-joined -/

/-- Claim C2: transcript flattening is order-preserving (it is a homomorphism
on event lists), events without a `segs` list and segments without a `utf8`
field contribute nothing, each carried text is appended in order, the result
is the parts joined with single spaces, and the two-event example flattens to
`"a b"`. -/
theorem transcript_flattening (doc : CaptionDoc) :
    (∀ evs₁ evs₂ : List Event,
        transcript_parts (evs₁ ++ evs₂) = transcript_parts evs₁ ++ transcript_parts evs₂) ∧
    (∀ evs : List Event, transcript_parts (Event.mk none :: evs) = transcript_parts evs) ∧
    (∀ (segs : List Seg) (evs : List Event),
        transcript_parts (Event.mk (some (Seg.mk none :: segs)) :: evs) =
          transcript_parts (Event.mk (some segs) :: evs)) ∧
    (∀ (txt : String) (segs : List Seg) (evs : List Event),
        transcript_parts (Event.mk (some (Seg.mk (some txt) :: segs)) :: evs) =
          txt :: transcript_parts (Event.mk (some segs) :: evs)) ∧
    (transcript_text doc = String.intercalate " " (transcript_parts (doc.events.getD []))) ∧
    transcript_text docAB = "a b" := by
  refine ⟨?_, ?_, ?_, ?_, rfl, rfl⟩
  · intro evs₁ evs₂
    induction evs₁ with
    | nil => simp [transcript_parts]
    | cons e rest ih => simp [transcript_parts, ih]
  · intro evs
    simp [transcript_parts]
  · intro segs evs
    simp [transcript_parts, List.filterMap_cons]
  · intro txt segs evs
    simp [transcript_parts, List.filterMap_cons]

/-! ### Claim C3: empty flattened output fails with EmptyTranscript -/

/-- Claim C3: the fetch fails with the empty-transcript error exactly when
the flattened, joined output is empty or whitespace-only after trimming, and
a successful result is never empty or whitespace-only. -/
theorem empty_transcript_check (doc : CaptionDoc) :
    (extract_transcript doc = .error .emptyTranscript ↔
        (transcript_text doc).data.all isPySpace = true) ∧
    (∀ s, extract_transcript doc = .ok s →
        s = transcript_text doc ∧ s.data.all isPySpace = false ∧ s ≠ "") := by
  have hiff := pyStrip_eq_empty_iff (transcript_text doc)
  constructor
  · by_cases h : pyStrip (transcript_text doc) = ""
    · simp [extract_transcript, h, hiff.mp h]
    · have hns : ¬ (transcript_text doc).data.all isPySpace = true := fun hh => h (hiff.mpr hh)
      simp [extract_transcript, h, hns]
  · intro s h
    by_cases hc : pyStrip (transcript_text doc) = ""
    · simp [extract_transcript, hc] at h
    · rw [extract_transcript] at h
      simp only [if_neg hc, Except.ok.injEq] at h
      subst h
      refine ⟨rfl, ?_, ?_⟩
      · have : ¬ (transcript_text doc).data.all isPySpace = true := fun hh => hc (hiff.mpr hh)
        exact Bool.not_eq_true _ ▸ this
      · intro he
        apply hc
        rw [he] at hiff ⊢
        exact hiff.mpr (by decide)

/-- Witness for C3 at concrete documents: the empty document fails with the
empty-transcript error and the `"a b"` document succeeds non-whitespace. -/
theorem empty_transcript_check_witness :
    extract_transcript docEmpty = .error .emptyTranscript ∧
      ("a b" = transcript_text docAB ∧ ("a b" : String).data.all isPySpace = false ∧
        ("a b" : String) ≠ "") :=
  ⟨(empty_transcript_check docEmpty).1.mpr (by decide),
   (empty_transcript_check docAB).2 "a b" rfl⟩

/-! ### Claim C4: prompt truncation limits -/

/-- Claim C4: the summarization prompt truncates the transcript at exactly
10,000 characters and the answer prompt truncates the summary at 2,500 and
the question at 500; each prompt depends only on the in-limit part of its
inputs (content beyond the limit never appears), and inputs at or below the
limit appear in full. -/
theorem prompt_truncation (transcript summary question : String) :
    (summary_prompt transcript = summarize_instr ++ pyTake transcript 10000) ∧
    ((pyTake transcript 10000).length = min 10000 transcript.length) ∧
    (transcript.length ≤ 10000 → summary_prompt transcript = summarize_instr ++ transcript) ∧
    (∀ t, pyTake t 10000 = pyTake transcript 10000 → summary_prompt t = summary_prompt transcript) ∧
    (ask_prompt summary question =
        ask_instr ++ "Summary: " ++ pyTake summary 2500 ++ "\n" ++
          "Question: " ++ pyTake question 500) ∧
    ((pyTake summary 2500).length = min 2500 summary.length) ∧
    ((pyTake question 500).length = min 500 question.length) ∧
    (summary.length ≤ 2500 → question.length ≤ 500 →
        ask_prompt summary question =
          ask_instr ++ "Summary: " ++ summary ++ "\n" ++ "Question: " ++ question) ∧
    (∀ s q, pyTake s 2500 = pyTake summary 2500 → pyTake q 500 = pyTake question 500 →
        ask_prompt s q = ask_prompt summary question) := by
  refine ⟨rfl, pyTake_length transcript 10000, ?_, ?_, rfl, pyTake_length summary 2500,
    pyTake_length question 500, ?_, ?_⟩
  · intro h
    rw [summary_prompt, pyTake_of_length_le h]
  · intro t ht
    rw [summary_prompt, summary_prompt, ht]
  · intro hs hq
    rw [ask_prompt, pyTake_of_length_le hs, pyTake_of_length_le hq]
  · intro s q hs hq
    rw [ask_prompt, ask_prompt, hs, hq]

/-- Witness for C4 at concrete strings within the limits: the full inputs
appear in the constructed prompts. -/
theorem prompt_truncation_witness :
    summary_prompt "t" = summarize_instr ++ "t" ∧
      ask_prompt "s" "q" = ask_instr ++ "Summary: " ++ "s" ++ "\n" ++ "Question: " ++ "q" :=
  ⟨(prompt_truncation "t" "s" "q").2.2.1 (by decide),
   (prompt_truncation "t" "s" "q").2.2.2.2.2.2.2.1 (by decide) (by decide)⟩

/-! ### Computation lemmas for the /ask endpoint -/

lemma ask_grant (q s ans : String) (v : JVal) (pc : Int)
    (hv : pyInt v = .ok pc) (hlt : pc < 8) :
    ask ⟨true, fun _ => .ok ans⟩ (askJson q v s) =
      ⟨200, [("success", .bool true), ("answer", .str ans),
             ("prompt_count", .int (pc + 1))]⟩ := by
  have h8 : ¬ (8 ≤ pc) := by omega
  simp [ask, askCore, askJson, hasKey, jget, hv, h8, asStr]

lemma ask_rejectMax (q s ans : String) (v : JVal) (pc : Int)
    (hv : pyInt v = .ok pc) (hge : 8 ≤ pc) :
    ask ⟨true, fun _ => .ok ans⟩ (askJson q v s) =
      ⟨400, [("success", .bool false), ("error", .str "Max prompt limit reached")]⟩ := by
  simp [ask, askCore, askJson, hasKey, jget, hv, hge]

lemma ask_intFail (q s ans : String) (v : JVal) (e : String)
    (hv : pyInt v = .error e) :
    ask ⟨true, fun _ => .ok ans⟩ (askJson q v s) =
      ⟨500, [("verification", .bool false),
             ("error", .str ("Internal server error " ++ e))]⟩ := by
  simp [ask, askCore, askJson, hasKey, jget, hv]

/-! ### Claim C5: bounded-turn gate (0..7 admitted, 8+ rejected) -/

/-- Claim C5: with an integer `prompt_count`, the endpoint admits values 0..7
and rejects values 8 and above with the max-limit error; on rejection no
incremented counter is issued (the rejection body carries no `prompt_count`
field), and on an admitted, successful turn the response carries exactly
`prompt_count + 1`. -/
theorem conversation_gate (q s ans : String) (pc : Int) :
    (0 ≤ pc → pc ≤ 7 →
        ask ⟨true, fun _ => .ok ans⟩ (askJson q (.int pc) s) =
          ⟨200, [("success", .bool true), ("answer", .str ans),
                 ("prompt_count", .int (pc + 1))]⟩) ∧
    (8 ≤ pc →
        ask ⟨true, fun _ => .ok ans⟩ (askJson q (.int pc) s) =
          ⟨400, [("success", .bool false), ("error", .str "Max prompt limit reached")]⟩) ∧
    (8 ≤ pc →
        jget (ask ⟨true, fun _ => .ok ans⟩ (askJson q (.int pc) s)).body "prompt_count" =
          none) := by
  refine ⟨?_, ?_, ?_⟩
  · intro h0 h7
    exact ask_grant q s ans (.int pc) pc rfl (by omega)
  · intro h8
    exact ask_rejectMax q s ans (.int pc) pc rfl h8
  · intro h8
    rw [ask_rejectMax q s ans (.int pc) pc rfl h8]
    simp [jget]

/-- Witness for C5: `prompt_count` 3 is admitted and answered with 4, and
`prompt_count` 9 is rejected with the max-limit error. -/
theorem conversation_gate_witness :
    ask ⟨true, fun _ => .ok "A"⟩ (askJson "q" (.int 3) "s") =
      ⟨200, [("success", .bool true), ("answer", .str "A"), ("prompt_count", .int 4)]⟩ ∧
    ask ⟨true, fun _ => .ok "A"⟩ (askJson "q" (.int 9) "s") =
      ⟨400, [("success", .bool false), ("error", .str "Max prompt limit reached")]⟩ :=
  ⟨(conversation_gate "q" "s" "A" 3).1 (by decide) (by decide),
   (conversation_gate "q" "s" "A" 9).2.1 (by decide)⟩

/-! ### Claim C7: response to prompt_count = 8 -/

/-- Counterexample to claim C7: at `prompt_count = 8` with all required
fields present, the 400 rejection body carries no `prompt_count` field at
all, refuting the claim that the response still contains the value 8. -/
theorem ask_count8_counterexample :
    (ask ⟨true, fun _ => .ok "A"⟩ (askJson "q" (.int 8) "s")).status = 400 ∧
    jget (ask ⟨true, fun _ => .ok "A"⟩ (askJson "q" (.int 8) "s")).body "prompt_count" =
      none ∧
    ¬ jget (ask ⟨true, fun _ => .ok "A"⟩ (askJson "q" (.int 8) "s")).body "prompt_count" =
        some (.int 8) := by
  refine ⟨by decide, by decide, by decide⟩

/-- Claim C7 as amended: a `/ask` request with `prompt_count = 8` and all
required fields present yields a 400 response with the max-limit error
message, and the response body contains no `prompt_count` field, so no
incremented counter is issued. -/
theorem ask_count8_amended (q s ans : String) :
    ask ⟨true, fun _ => .ok ans⟩ (askJson q (.int 8) s) =
      ⟨400, [("success", .bool false), ("error", .str "Max prompt limit reached")]⟩ ∧
    jget (ask ⟨true, fun _ => .ok ans⟩ (askJson q (.int 8) s)).body "prompt_count" =
      none := by
  have h := ask_rejectMax q s ans (.int 8) 8 rfl (by omega)
  exact ⟨h, by rw [h]; simp [jget]⟩

/-! ### Claim C8: the two error envelope shapes -/

/-- Claim C8: on `/ask`, missing-required-field failures return 400 with the
`{"error": ...}` shape (exactly `summary is required.` for a missing summary)
and no `verification` key, while non-JSON requests, `None` bodies, and
exceptions escaping the handler return the `{"verification": false,
"error": ...}` shape; the two envelope shapes are distinct. -/
theorem ask_error_envelopes (env : AskEnv) (d : JObj) (b : Option JObj) :
    (ask env ⟨false, b⟩ =
        ⟨400, [("verification", .bool false), ("error", .str "JSON not available.")]⟩) ∧
    (ask env ⟨true, none⟩ =
        ⟨400, [("verification", .bool false), ("error", .str "Request failed.")]⟩) ∧
    (hasKey d "question" = true → hasKey d "prompt_count" = true →
      hasKey d "summary" = false →
        ask env ⟨true, some d⟩ = ⟨400, [("error", .str "summary is required.")]⟩) ∧
    (hasKey d "question" = true → hasKey d "prompt_count" = true →
      hasKey d "summary" = false →
        jget (ask env ⟨true, some d⟩).body "verification" = none) ∧
    (∀ e, askCore env ⟨true, some d⟩ = .error e →
        ask env ⟨true, some d⟩ =
          ⟨500, [("verification", .bool false),
                 ("error", .str ("Internal server error " ++ e))]⟩) := by
  refine ⟨?_, ?_, ?_, ?_, ?_⟩
  · simp [ask, askCore]
  · simp [ask, askCore]
  · intro hq hp hs
    simp [ask, askCore, hq, hp, hs]
  · intro hq hp hs
    simp [ask, askCore, hq, hp, hs, jget]
  · intro e he
    simp [ask, he]

/-- Witness for C8: a request missing only `summary` gets the plain error
envelope, and a request whose `prompt_count` cannot be converted gets the
`verification` envelope. -/
theorem ask_error_envelopes_witness :
    ask ⟨true, fun _ => .ok "A"⟩ ⟨true, some [("question", .str "q"), ("prompt_count", .int 0)]⟩ =
      ⟨400, [("error", .str "summary is required.")]⟩ ∧
    ask ⟨true, fun _ => .ok "A"⟩ ⟨true, some (askJson "q" (.str "five") "s").body.iget⟩ =
      ⟨500, [("verification", .bool false),
             ("error", .str ("Internal server error " ++
               "invalid literal for int() with base 10: five"))]⟩ :=
  ⟨(ask_error_envelopes ⟨true, fun _ => .ok "A"⟩
      [("question", .str "q"), ("prompt_count", .int 0)] none).2.2.1 (by decide) (by decide)
      (by decide),
   (ask_error_envelopes ⟨true, fun _ => .ok "A"⟩
      [("question", .str "q"), ("prompt_count", .str "five"), ("summary", .str "s")]
      none).2.2.2.2 "invalid literal for int() with base 10: five" rfl⟩

/-! ### Claim C9: prompt_count type coercion behavior -/

/-- Claim C9: a present `prompt_count` that `int()` cannot convert (such as
`"five"` or `null`) is not a 400 validation failure: the conversion raises
and the request returns 500 with the `verification` envelope; a numeric
string such as `"7"` is converted and treated as its integer value by the
turn-limit check. -/
theorem prompt_count_conversion (q s ans : String) (v : JVal) :
    (∀ e, pyInt v = .error e →
        ask ⟨true, fun _ => .ok ans⟩ (askJson q v s) =
          ⟨500, [("verification", .bool false),
                 ("error", .str ("Internal server error " ++ e))]⟩) ∧
    (∀ n, pyInt v = .ok n →
        ask ⟨true, fun _ => .ok ans⟩ (askJson q v s) =
          ask ⟨true, fun _ => .ok ans⟩ (askJson q (.int n) s)) ∧
    (pyInt (.str "five") = .error "invalid literal for int() with base 10: five") ∧
    (pyInt .null =
      .error "int() argument must be a string, a bytes-like object or a real number, not NoneType") ∧
    (pyInt (.str "7") = .ok 7) := by
  refine ⟨?_, ?_, rfl, rfl, rfl⟩
  · intro e he
    exact ask_intFail q s ans v e he
  · intro n hn
    by_cases h8 : 8 ≤ n
    · rw [ask_rejectMax q s ans v n hn h8, ask_rejectMax q s ans (.int n) n rfl h8]
    · rw [ask_grant q s ans v n hn (by omega), ask_grant q s ans (.int n) n rfl (by omega)]

/-- Witness for C9: `"five"` yields the 500 verification envelope and `"7"`
behaves exactly like the integer 7. -/
theorem prompt_count_conversion_witness :
    ask ⟨true, fun _ => .ok "A"⟩ (askJson "q" (.str "five") "s") =
      ⟨500, [("verification", .bool false),
             ("error", .str ("Internal server error " ++
               "invalid literal for int() with base 10: five"))]⟩ ∧
    ask ⟨true, fun _ => .ok "A"⟩ (askJson "q" (.str "7") "s") =
      ask ⟨true, fun _ => .ok "A"⟩ (askJson "q" (.int 7) "s") :=
  ⟨(prompt_count_conversion "q" "s" "A" (.str "five")).1
      "invalid literal for int() with base 10: five" rfl,
   (prompt_count_conversion "q" "s" "A" (.str "7")).2.1 7 rfl⟩

/-! ### Claim C10: no lower bound on the turn counter -/

/-- Claim C10: the turn-limit check has no lower bound: every integer
`prompt_count` strictly below 8, including negative values, is granted a
turn, and the successful response carries that value plus one. -/
theorem no_lower_bound (q s ans : String) (pc : Int) (h : pc < 8) :
    (ask ⟨true, fun _ => .ok ans⟩ (askJson q (.int pc) s)).status = 200 ∧
    jget (ask ⟨true, fun _ => .ok ans⟩ (askJson q (.int pc) s)).body "prompt_count" =
      some (.int (pc + 1)) := by
  rw [ask_grant q s ans (.int pc) pc rfl h]
  exact ⟨rfl, by simp [jget]⟩

/-- Witness for C10 at the negative counter `-5`: the turn is granted and
the response carries `-4`. -/
theorem no_lower_bound_witness :
    (ask ⟨true, fun _ => .ok "A"⟩ (askJson "q" (.int (-5)) "s")).status = 200 ∧
    jget (ask ⟨true, fun _ => .ok "A"⟩ (askJson "q" (.int (-5)) "s")).body "prompt_count" =
      some (.int (-4)) := by
  have h := no_lower_bound "q" "s" "A" (-5) (by decide)
  simpa using h

end App
